import Mathlib

/-!
Shallow embedding of the interactive alignment viewer of `seqtools`
(`src/viewer.rs`): the `App` model, its construction (`App::new`), the
scroll/toggle state machine, the ruler generator, the alphabet
classifier, and the event-loop / terminal-lifecycle control flow of
`run_app` / `render_view`.

Machine integers: the Rust code stores `maxlen`, `nseqs`, `xscroll`,
`yscroll`, `frame_height`, `frame_width` as `u16`.  We model them as
`Nat`, inserting an explicit `% 65536` exactly where the source performs
a truncating cast (`as u16`), and modelling the one wrapping subtraction
(`self.frame_width - 2`, which is a plain unchecked `u16` subtraction in
the source) by `wrapSub2`.  Rust's checked arithmetic panics in debug
builds and wraps in release builds; we model the release (two's
complement wrapping) semantics and record where it differs from
saturation.  Strings in the sequence data are ASCII, so Rust's
byte-length `seq.len()` coincides with the character count; sequence
strings are modelled by Lean `String` and the ruler, built
character-by-character, by `List Char`.
-/

/-- `enum Alphabet` from viewer.rs. -/
inductive Alphabet where
  | Nucleic
  | Protein
deriving DecidableEq

/-- `const NUCLEOTIDES: [char; 11]` from viewer.rs. -/
def NUCLEOTIDES : List Char := ['A', 'a', 'T', 't', 'C', 'c', 'G', 'g', 'U', 'u', '-']

/-- `struct App` from viewer.rs.  `u16` fields become `Nat` (see the
module comment); the `ruler: String` field becomes `List Char`. -/
structure App where
  yscroll : Nat
  xscroll : Nat
  ids : List String
  seqs : List String
  title : String
  maxlen : Nat
  nseqs : Nat
  frame_height : Nat
  frame_width : Nat
  alphabet : Alphabet
  dark : Bool
  show_help : Bool
  highlight_background : Bool
  ruler : List Char
deriving DecidableEq

/-- Decimal digit characters of `n`, most significant first: the
embedding of Rust's `format!("{i}")` used in the ruler loop. -/
def decDigits (n : Nat) : List Char :=
  if n < 10 then [Char.ofNat (48 + n)]
  else decDigits (n / 10) ++ [Char.ofNat (48 + n % 10)]
termination_by n
decreasing_by exact Nat.div_lt_self (by omega) (by omega)

/-- Embedding of `(i as f32 + 1.).log10().ceil() as u16` from the ruler
loop of `App::new`: the exact ceiling of the real `log10 (i + 1)`
(`f32` computes it exactly for every `u16` input: `log10 (i+1)` is an
integer only when `i + 1` is a power of ten, and otherwise its distance
to the nearest integer exceeds `f32` rounding error on this range). -/
def rulerDigitCount (i : Nat) : Nat :=
  if 10 ^ Nat.log 10 (i + 1) = i + 1 then Nat.log 10 (i + 1) else Nat.log 10 (i + 1) + 1

/-- The ruler-building `while` loop of `App::new` (viewer.rs lines
84-95), with loop variable `i` and accumulator `acc` (the `ruler`
string being extended). -/
def rulerLoop (maxlen i : Nat) (acc : List Char) : List Char :=
  if i ≤ maxlen then
    if i % 10 = 0 then
      rulerLoop maxlen (i + (rulerDigitCount i - 1) + 1) (acc ++ decDigits i)
    else
      rulerLoop maxlen (i + 1) (acc ++ [' '])
  else acc
termination_by maxlen + 1 - i
decreasing_by all_goals omega

/-- `App::new` from viewer.rs.  `seq.len() as u16` truncates each
length to `u16` before `max` is taken, hence the `% 65536` inside the
`map`; likewise `seqs.len() as u16`. -/
def App.new (ids : List String) (seqs : List String) (title : String) : App :=
  let maxlen := ((seqs.map (fun seq => seq.length % 65536)).max?).getD 0
  let nseqs := seqs.length % 65536
  let alphabet :=
    match seqs.any (fun seq => seq.data.any (fun c => ! NUCLEOTIDES.contains c)) with
    | true => Alphabet.Protein
    | false => Alphabet.Nucleic
  let ruler := rulerLoop maxlen 1 [' ']
  { yscroll := 0
    xscroll := 0
    title := title
    ids := ids
    seqs := seqs
    maxlen := maxlen
    nseqs := nseqs
    frame_height := 0
    frame_width := 0
    alphabet := alphabet
    dark := true
    show_help := false
    highlight_background := true
    ruler := ruler }

/-- `App::set_frame`: the `Rect` fields are `u16`, so callers satisfy
`h < 65536` and `w < 65536`. -/
def App.set_frame (a : App) (h w : Nat) : App :=
  { a with frame_height := h, frame_width := w }

/-- The wrapping `u16` subtraction `frame_width - 2` appearing in
`App::scroll_right` and `App::scroll_end` ("The -2 is to account for
the borders of the block").  It is an unchecked subtraction in the
source: for `w < 2` it underflows (panic in debug builds, wrap-around
in release builds); this is the release-build wrap-around value. -/
def wrapSub2 (w : Nat) : Nat := (w + 65534) % 65536

/-- `App::scroll_right`: `xscroll < maxlen.saturating_sub(frame_width - 2)`. -/
def App.scroll_right (a : App) : App :=
  if a.xscroll < a.maxlen - wrapSub2 a.frame_width then
    { a with xscroll := a.xscroll + 1 }
  else a

/-- `App::scroll_left`: `xscroll.saturating_sub(1)`. -/
def App.scroll_left (a : App) : App :=
  { a with xscroll := a.xscroll - 1 }

/-- `App::scroll_down`: `yscroll < nseqs.saturating_sub(frame_height)`. -/
def App.scroll_down (a : App) : App :=
  if a.yscroll < a.nseqs - a.frame_height then
    { a with yscroll := a.yscroll + 1 }
  else a

/-- `App::scroll_up`: `yscroll.saturating_sub(1)`. -/
def App.scroll_up (a : App) : App :=
  { a with yscroll := a.yscroll - 1 }

/-- `App::scroll_top`. -/
def App.scroll_top (a : App) : App :=
  { a with yscroll := 0 }

/-- `App::scroll_bottom`: `nseqs.saturating_sub(frame_height)`. -/
def App.scroll_bottom (a : App) : App :=
  { a with yscroll := a.nseqs - a.frame_height }

/-- `App::scroll_start`. -/
def App.scroll_start (a : App) : App :=
  { a with xscroll := 0 }

/-- `App::scroll_end`: `maxlen.saturating_sub(frame_width - 2)`. -/
def App.scroll_end (a : App) : App :=
  { a with xscroll := a.maxlen - wrapSub2 a.frame_width }

/-- `App::toggle_dark`. -/
def App.toggle_dark (a : App) : App :=
  { a with dark := ! a.dark }

/-- `App::toggle_help`. -/
def App.toggle_help (a : App) : App :=
  { a with show_help := ! a.show_help }

/-- `App::toggle_highlight`. -/
def App.toggle_highlight (a : App) : App :=
  { a with highlight_background := ! a.highlight_background }

/-! ## Scroll operations as a closed alphabet (for the state-machine claims) -/

/-- The eight scroll operations of the §4.4 scrolling state machine. -/
inductive ScrollOp where
  | up
  | down
  | left
  | right
  | top
  | bottom
  | start
  | toEnd
deriving DecidableEq

/-- Apply one scroll operation to the model. -/
def applyOp (op : ScrollOp) (a : App) : App :=
  match op with
  | .up => a.scroll_up
  | .down => a.scroll_down
  | .left => a.scroll_left
  | .right => a.scroll_right
  | .top => a.scroll_top
  | .bottom => a.scroll_bottom
  | .start => a.scroll_start
  | .toEnd => a.scroll_end

/-- Apply a finite sequence of scroll operations, left to right. -/
def applyOps (ops : List ScrollOp) (a : App) : App :=
  ops.foldl (fun a op => applyOp op a) a

/-! ## Event loop (`run_app`) and terminal lifecycle (`render_view`)

`run_app` and `render_view` do IO; we embed them as functions of an
explicit environment: each loop iteration is driven by a `LoopStep`
recording the outcome of `terminal.draw`, the content-panel rectangle
that `ui` feeds into `App::set_frame` during a successful draw, the
outcome of `event::poll`, and the outcome of `event::read`.  IO errors
are abstract tokens. -/

/-- Abstract stand-in for `std::io::Error` values. -/
abbrev IOError := Nat

/-- The key codes recognized by the `match key.code` dispatch in
`run_app`; `other` covers the `_ => {}` arm. -/
inductive VKey where
  | quit
  | toggleDark
  | toggleHelp
  | toggleHighlight
  | up
  | down
  | right
  | left
  | pageUp
  | pageDown
  | home
  | endKey
  | other
deriving DecidableEq

/-- The non-quit key dispatch of `run_app` (viewer.rs lines 221-232). -/
def dispatch (k : VKey) (a : App) : App :=
  match k with
  | .quit => a
  | .toggleDark => a.toggle_dark
  | .toggleHelp => a.toggle_help
  | .toggleHighlight => a.toggle_highlight
  | .up => a.scroll_up
  | .down => a.scroll_down
  | .right => a.scroll_right
  | .left => a.scroll_left
  | .pageUp => a.scroll_top
  | .pageDown => a.scroll_bottom
  | .home => a.scroll_start
  | .endKey => a.scroll_end
  | .other => a

/-- Environment of one `run_app` loop iteration. -/
structure LoopStep where
  draw : Except IOError Unit
  frame : Nat × Nat
  poll : Except IOError Bool
  read : Except IOError VKey

/-- Outcome of `run_app`: normal quit (`Ok(())`), a propagated IO
error, or `pending` when the supplied finite environment is exhausted
while the (in reality unbounded) loop would keep running. -/
inductive RunResult where
  | ok
  | err (e : IOError)
  | pending (a : App)
deriving DecidableEq

/-- `run_app` (viewer.rs lines 204-241) over an explicit finite list of
iteration environments.  Each iteration: `terminal.draw(...)?` (during
which `ui` calls `app.set_frame` with the content-panel rectangle),
then `event::poll(timeout)?`; on a key event `event::read()?` and the
key dispatch, where `q`/`Q` returns `Ok(())`. -/
def runApp (a : App) : List LoopStep → RunResult
  | [] => .pending a
  | s :: rest =>
    match s.draw with
    | .error e => .err e
    | .ok _ =>
      let a := a.set_frame s.frame.1 s.frame.2
      match s.poll with
      | .error e => .err e
      | .ok false => runApp a rest
      | .ok true =>
        match s.read with
        | .error e => .err e
        | .ok k => if k = VKey.quit then .ok else runApp (dispatch k a) rest

/-- Terminal-affecting actions attempted by `render_view`, in source
order, plus the final `println!` of a swallowed `run_app` error. -/
inductive TermAction where
  | enableRaw
  | enterAltMouse
  | disableRaw
  | leaveAltMouse
  | showCursor
  | printErr (e : IOError)
deriving DecidableEq

/-- Outcomes of the six fallible terminal calls made by `render_view`
itself: `enable_raw_mode()`, `execute!(EnterAlternateScreen,
EnableMouseCapture)`, `Terminal::new`, `disable_raw_mode()`,
`execute!(LeaveAlternateScreen, DisableMouseCapture)`,
`terminal.show_cursor()`. -/
structure TermOracle where
  enableRawRes : Except IOError Unit
  enterAltRes : Except IOError Unit
  newTermRes : Except IOError Unit
  disableRawRes : Except IOError Unit
  leaveAltRes : Except IOError Unit
  showCursorRes : Except IOError Unit

/-- `render_view` (viewer.rs lines 171-202): sets up the terminal (each
step behind `?`), runs `run_app`, restores the terminal (each step
behind `?`), prints a `run_app` error if there was one, and returns
`Ok(())`.  Returns the list of attempted terminal actions together with
the function's result. -/
def renderView (ids : List String) (seqs : List String) (title : String)
    (o : TermOracle) (steps : List LoopStep) : List TermAction × Except IOError Unit :=
  match o.enableRawRes with
  | .error e => ([.enableRaw], .error e)
  | .ok _ =>
    match o.enterAltRes with
    | .error e => ([.enableRaw, .enterAltMouse], .error e)
    | .ok _ =>
      match o.newTermRes with
      | .error e => ([.enableRaw, .enterAltMouse], .error e)
      | .ok _ =>
        let res := runApp (App.new ids seqs title) steps
        match o.disableRawRes with
        | .error e => ([.enableRaw, .enterAltMouse, .disableRaw], .error e)
        | .ok _ =>
          match o.leaveAltRes with
          | .error e => ([.enableRaw, .enterAltMouse, .disableRaw, .leaveAltMouse], .error e)
          | .ok _ =>
            match o.showCursorRes with
            | .error e =>
              ([.enableRaw, .enterAltMouse, .disableRaw, .leaveAltMouse, .showCursor], .error e)
            | .ok _ =>
              match res with
              | .err e =>
                ([.enableRaw, .enterAltMouse, .disableRaw, .leaveAltMouse, .showCursor,
                  .printErr e], .ok ())
              | _ =>
                ([.enableRaw, .enterAltMouse, .disableRaw, .leaveAltMouse, .showCursor], .ok ())

/-! ## Specification-side definitions

These definitions render the spec's wording (not the code): the
spec-side nucleotide set for the alphabet claim, and the intended
column layout of the ruler for the ruler claim. -/

/-- Modelled from the spec: a character that belongs, case-insensitively,
to the nucleotide set consisting of A, T, C, G, U and the gap character. -/
def specIsNucleotide (c : Char) : Prop :=
  ∃ d ∈ (['A', 'T', 'C', 'G', 'U', '-'] : List Char), c = d ∨ c = d.toLower

/-- The largest multiple of 10 that is at most `maxlen` (the position of
the last ruler numeral when it is at least 10). -/
def lastTick (maxlen : Nat) : Nat := 10 * (maxlen / 10)

/-- Actual length of the generated ruler: `maxlen + 1`, except that a
final numeral whose digits run past column `maxlen` extends the string
to `lastTick maxlen + (number of digits of lastTick maxlen)`. -/
def rulerLen (maxlen : Nat) : Nat :=
  if 10 ≤ lastTick maxlen then
    max (maxlen + 1) (lastTick maxlen + (decDigits (lastTick maxlen)).length)
  else maxlen + 1

/-- Modelled from the spec: the intended character of the ruler at
string index `j` — the digits of the decade numeral `m = 10 * (j / 10)`
occupy indices `m` to `m + digits - 1` for each decade `m` with
`10 ≤ m ≤ maxlen`, and every other index (including index 0, the
leading gutter space) holds a space. -/
def rulerSpecChar (maxlen j : Nat) : Char :=
  if 10 ≤ 10 * (j / 10) ∧ 10 * (j / 10) ≤ maxlen ∧
      j < 10 * (j / 10) + (decDigits (10 * (j / 10))).length then
    (decDigits (10 * (j / 10))).getD (j - 10 * (j / 10)) ' '
  else ' '

/-- Loop invariant for the position `i` of the ruler loop: `i` never
sits strictly inside the span of an already-emitted decade numeral. -/
def cleanPos (i : Nat) : Prop :=
  i % 10 = 0 ∨ 10 * (i / 10) < 10 ∨ 10 * (i / 10) + (decDigits (10 * (i / 10))).length ≤ i

/-- End position (one past the last index) of the ruler suffix the loop
generates starting at position `i`. -/
def rulerEndPos (maxlen i : Nat) : Nat :=
  if i ≤ maxlen then
    if 10 ≤ lastTick maxlen ∧ i ≤ lastTick maxlen then
      max (maxlen + 1) (lastTick maxlen + (decDigits (lastTick maxlen)).length)
    else maxlen + 1
  else i

/-- Scroll-bound invariant of the model, stated with `Nat` (truncated)
subtraction: `x_scroll` is at most `max_len` minus the saturated usable
width, and `y_scroll` is at most `n_seqs - frame_height`. -/
def ScrollInv (a : App) : Prop :=
  a.xscroll ≤ a.maxlen - (a.frame_width - 2) ∧ a.yscroll ≤ a.nseqs - a.frame_height

/-- A 65536-character sequence (one byte longer than `u16::MAX`), used
to exhibit the `u16` truncation in `App::new`. -/
def longSeq : String := String.mk (List.replicate 65536 'A')

/-- A one-character sequence. -/
def shortSeq : String := String.mk ['B']

/-- A terminal oracle in which every terminal call succeeds. -/
def allOkOracle : TermOracle :=
  ⟨.ok (), .ok (), .ok (), .ok (), .ok (), .ok ()⟩

/-- A terminal oracle in which `enable_raw_mode` succeeds but the
`execute!(EnterAlternateScreen, EnableMouseCapture)` call fails. -/
def altFailOracle : TermOracle :=
  ⟨.ok (), .error 7, .ok (), .ok (), .ok (), .ok ()⟩

/-! ## Basic lemmas -/

/-- Projection lemma: the `maxlen` computed by `App::new`. -/
lemma App.new_maxlen (ids seqs : List String) (title : String) :
    (App.new ids seqs title).maxlen =
      ((seqs.map (fun seq => seq.length % 65536)).max?).getD 0 := rfl

lemma longSeq_length : longSeq.length = 65536 := List.length_replicate 65536 'A'

lemma shortSeq_length : shortSeq.length = 1 := rfl

lemma c10_map_trunc :
    (([longSeq, shortSeq] : List String).map (fun seq => seq.length % 65536)) = [0, 1] := by
  simp only [List.map_cons, List.map_nil, longSeq_length, shortSeq_length]

lemma c10_map_length :
    (([longSeq, shortSeq] : List String).map String.length) = [65536, 1] := by
  simp only [List.map_cons, List.map_nil, longSeq_length, shortSeq_length]

/-- For `u16`-range inputs the wrapping `frame_width - 2` is at least
the saturating `frame_width - 2` (they agree for `w ≥ 2`, and for
`w < 2` the wrapped value is 65534 or 65535). -/
lemma wrapSub2_ge (w : Nat) (hw : w < 65536) : w - 2 ≤ wrapSub2 w := by
  unfold wrapSub2
  omega

lemma max?_getD_eq_foldr (l : List Nat) : l.max?.getD 0 = l.foldr max 0 := by
  induction l with
  | nil => rfl
  | cons a l ih =>
    simp only [List.max?_cons, Option.getD_some, List.foldr_cons]
    cases hm : l.max? with
    | none =>
      have h0 : l.foldr max 0 = 0 := by rw [← ih, hm]; rfl
      rw [h0]
      simp
    | some m =>
      have h0 : l.foldr max 0 = m := by rw [← ih, hm]; rfl
      rw [h0]
      simp

/-! ## C9: initial state -/

/-- C9: a freshly constructed model starts with `y_scroll = 0`,
`x_scroll = 0`, `frame_height = 0`, `frame_width = 0`, `dark = true`,
`show_help = false`, and `highlight_background = true`. -/
theorem c9_initial_state (ids seqs : List String) (title : String) :
    (App.new ids seqs title).yscroll = 0 ∧ (App.new ids seqs title).xscroll = 0 ∧
    (App.new ids seqs title).frame_height = 0 ∧ (App.new ids seqs title).frame_width = 0 ∧
    (App.new ids seqs title).dark = true ∧ (App.new ids seqs title).show_help = false ∧
    (App.new ids seqs title).highlight_background = true :=
  ⟨rfl, rfl, rfl, rfl, rfl, rfl, rfl⟩

/-! ## C8: scroll_top then scroll_bottom -/

/-- C8: for every model state, `scroll_top` followed by `scroll_bottom`
yields exactly the same state as `scroll_bottom` alone. -/
theorem c8_top_then_bottom (a : App) :
    a.scroll_top.scroll_bottom = a.scroll_bottom := rfl

/-! ## C7: scroll_end on narrow content -/

/-- C7 counterexample: a state whose content is narrower than the frame
(`maxlen = 9 < 10 = frame_width`) on which `scroll_end` yields
`x_scroll = 1`, not `0` (the horizontal bound subtracts the two border
cells, so content of width `frame_width - 1` still scrolls by one). -/
theorem c7_counterexample :
    ((App.new [] ["AAAAAAAAA"] "t").set_frame 5 10).maxlen <
      ((App.new [] ["AAAAAAAAA"] "t").set_frame 5 10).frame_width ∧
    ((App.new [] ["AAAAAAAAA"] "t").set_frame 5 10).scroll_end.xscroll = 1 := by
  decide

/-- C7 (amended): for every model state whose content is no wider than
the usable width (`maxlen ≤ frame_width - 2`, the frame width minus the
two border cells, with `frame_width` in the `u16` range and at least
2), `scroll_end` sets `x_scroll` to 0. -/
theorem c7_scroll_end_narrow (a : App) (h2 : 2 ≤ a.frame_width)
    (hw : a.frame_width < 65536) (hn : a.maxlen ≤ a.frame_width - 2) :
    a.scroll_end.xscroll = 0 := by
  show a.maxlen - wrapSub2 a.frame_width = 0
  unfold wrapSub2
  omega

/-- Witness for C7 (amended) at `maxlen = 3`, `frame_width = 10`. -/
theorem c7_scroll_end_narrow_witness :
    (2 ≤ ((App.new [] ["AAA"] "t").set_frame 4 10).frame_width ∧
      ((App.new [] ["AAA"] "t").set_frame 4 10).frame_width < 65536 ∧
      ((App.new [] ["AAA"] "t").set_frame 4 10).maxlen ≤
        ((App.new [] ["AAA"] "t").set_frame 4 10).frame_width - 2) ∧
    ((App.new [] ["AAA"] "t").set_frame 4 10).scroll_end.xscroll = 0 :=
  ⟨⟨by decide, by decide, by decide⟩,
    c7_scroll_end_narrow _ (by decide) (by decide) (by decide)⟩

/-! ## C2: the horizontal-bound computation underflows -/

/-- C2 (code bug): the horizontal-bound computation does not saturate.
At `frame_width = 1` (and likewise at the initial value 0) the `u16`
expression `frame_width - 2` underflows: it panics in debug builds and
wraps to 65535 in release builds, so `scroll_end` on content of width 5
yields `x_scroll = 0` where the saturating arithmetic required by the
spec (`5 - (1 - 2).saturating = 5 - 0`) would give the bound 5. -/
theorem c2_horizontal_bound_underflows :
    wrapSub2 1 = 65535 ∧ (1 : Nat) - 2 = 0 ∧
    ((App.new [] ["AAAAA"] "t").set_frame 1 1).scroll_end.xscroll = 0 ∧
    ((App.new [] ["AAAAA"] "t").set_frame 1 1).maxlen -
      (((App.new [] ["AAAAA"] "t").set_frame 1 1).frame_width - 2) = 5 := by
  decide

/-! ## C10: u16 truncation of maxlen and nseqs -/

/-- C10 counterexample: for a collection holding one sequence of length
65536 and one of length 1, the stored `maxlen` is 1 (each length is
truncated to `u16` *before* the maximum is taken), not
`(maximum length) mod 2^16 = 0` as the claim states. -/
theorem c10_counterexample :
    (App.new [] [longSeq, shortSeq] "t").maxlen ≠
      ((([longSeq, shortSeq] : List String).map String.length).foldr max 0) % 65536 := by
  rw [App.new_maxlen, c10_map_trunc, c10_map_length]
  decide

/-- C10 (amended): the model stores `max_len` and `n_seqs` as 16-bit
values: `n_seqs` is the sequence count mod 2^16, and `max_len` is the
maximum over the sequences of (length mod 2^16) — each length is
truncated to `u16` before the maximum is taken. -/
theorem c10_u16_truncation (ids seqs : List String) (title : String) :
    (App.new ids seqs title).maxlen = (seqs.map (fun s => s.length % 65536)).foldr max 0 ∧
    (App.new ids seqs title).nseqs = seqs.length % 65536 := by
  constructor
  · rw [App.new_maxlen]
    exact max?_getD_eq_foldr _
  · rfl

/-! ## C1: scroll bounds invariant -/

lemma applyOp_frame_width (op : ScrollOp) (a : App) :
    (applyOp op a).frame_width = a.frame_width := by
  cases op <;>
    simp only [applyOp, App.scroll_up, App.scroll_down, App.scroll_left, App.scroll_right,
      App.scroll_top, App.scroll_bottom, App.scroll_start, App.scroll_end] <;>
    split <;> rfl

lemma applyOp_scrollInv (op : ScrollOp) (a : App) (hw : a.frame_width < 65536)
    (h : ScrollInv a) : ScrollInv (applyOp op a) := by
  have hsub := wrapSub2_ge a.frame_width hw
  obtain ⟨hx, hy⟩ := h
  unfold ScrollInv at *
  cases op <;>
    simp only [applyOp, App.scroll_up, App.scroll_down, App.scroll_left, App.scroll_right,
      App.scroll_top, App.scroll_bottom, App.scroll_start, App.scroll_end] <;>
    (try split) <;>
    refine ⟨?_, ?_⟩ <;>
    dsimp only <;>
    omega

lemma applyOps_scrollInv (ops : List ScrollOp) :
    ∀ a : App, a.frame_width < 65536 → ScrollInv a → ScrollInv (applyOps ops a) := by
  induction ops with
  | nil => intro a _ h; exact h
  | cons op ops ih =>
    intro a hw h
    have hstep : applyOps (op :: ops) a = applyOps ops (applyOp op a) := rfl
    rw [hstep]
    exact ih (applyOp op a) (by rw [applyOp_frame_width]; exact hw)
      (applyOp_scrollInv op a hw h)

/-- C1: for every model constructed from `(ids, seqs, title)`, every
frame size (`u16`-ranged, as set from a `tui::layout::Rect` by
`set_frame`), and every finite sequence of the eight scroll operations
applied from the initial state, after every operation `0 ≤ y_scroll ≤
max(0, n_seqs − frame_height)` and `0 ≤ x_scroll ≤ max(0, max_len −
usable_width)` hold, where `usable_width = frame_width − 2` (the two
border cells).  Quantifying over all operation lists covers "after
every operation": every prefix of a sequence is itself a sequence. -/
theorem c1_scroll_bounds_invariant (ids seqs : List String) (title : String)
    (fh fw : Nat) (hfh : fh < 65536) (hfw : fw < 65536) (ops : List ScrollOp) :
    let st := applyOps ops ((App.new ids seqs title).set_frame fh fw)
    0 ≤ st.yscroll ∧ (st.yscroll : ℤ) ≤ max 0 ((st.nseqs : ℤ) - (st.frame_height : ℤ)) ∧
    0 ≤ st.xscroll ∧
    (st.xscroll : ℤ) ≤ max 0 ((st.maxlen : ℤ) - ((st.frame_width : ℤ) - 2)) := by
  intro st
  have hbase : ScrollInv ((App.new ids seqs title).set_frame fh fw) :=
    ⟨Nat.zero_le _, Nat.zero_le _⟩
  have hinv : ScrollInv st := applyOps_scrollInv ops _ hfw hbase
  obtain ⟨hx, hy⟩ := hinv
  refine ⟨Nat.zero_le _, ?_, Nat.zero_le _, ?_⟩
  · rw [le_max_iff]
    omega
  · rw [le_max_iff]
    omega

/-- Witness for C1 at a concrete model, frame and operation list. -/
theorem c1_scroll_bounds_invariant_witness :
    (3 < 65536 ∧ 4 < 65536) ∧
    (let st := applyOps [ScrollOp.right, ScrollOp.down, ScrollOp.toEnd]
      ((App.new [] ["AAAA"] "t").set_frame 3 4)
     0 ≤ st.yscroll ∧ (st.yscroll : ℤ) ≤ max 0 ((st.nseqs : ℤ) - (st.frame_height : ℤ)) ∧
     0 ≤ st.xscroll ∧
     (st.xscroll : ℤ) ≤ max 0 ((st.maxlen : ℤ) - ((st.frame_width : ℤ) - 2))) :=
  ⟨⟨by decide, by decide⟩,
    c1_scroll_bounds_invariant [] ["AAAA"] "t" 3 4 (by decide) (by decide)
      [ScrollOp.right, ScrollOp.down, ScrollOp.toEnd]⟩

/-! ## C6: alphabet classification -/

/-- The code's 11-character `NUCLEOTIDES` table recognizes exactly the
characters that case-insensitively belong to the spec's nucleotide set. -/
lemma contains_iff_specIsNucleotide (c : Char) :
    NUCLEOTIDES.contains c = true ↔ specIsNucleotide c := by
  rw [List.elem_iff]
  constructor
  · intro h
    simp only [NUCLEOTIDES, List.mem_cons, List.not_mem_nil, or_false] at h
    unfold specIsNucleotide
    rcases h with h | h | h | h | h | h | h | h | h | h | h <;> subst h <;> decide
  · intro h
    obtain ⟨d, hd, hcd⟩ := h
    simp only [List.mem_cons, List.not_mem_nil, or_false] at hd
    simp only [NUCLEOTIDES, List.mem_cons, List.not_mem_nil, or_false]
    rcases hd with hd | hd | hd | hd | hd | hd <;> subst hd <;>
      rcases hcd with hcd | hcd <;> subst hcd <;> decide

lemma notContains_iff (c : Char) :
    ((! NUCLEOTIDES.contains c) = true) ↔ ¬ specIsNucleotide c := by
  rw [← contains_iff_specIsNucleotide c]
  cases NUCLEOTIDES.contains c <;> simp

/-- C6: the classification computed at construction is Protein exactly
when some character of some sequence lies, case-insensitively, outside
the nucleotide set (A, T, C, G, U, gap), Nucleic otherwise; an empty
collection, or one whose sequences are all empty, is Nucleic. -/
theorem c6_alphabet_classification (ids seqs : List String) (title : String) :
    ((App.new ids seqs title).alphabet = Alphabet.Protein ↔
      ∃ s ∈ seqs, ∃ c ∈ s.data, ¬ specIsNucleotide c) ∧
    ((App.new ids seqs title).alphabet = Alphabet.Nucleic ↔
      ¬ ∃ s ∈ seqs, ∃ c ∈ s.data, ¬ specIsNucleotide c) ∧
    (seqs = [] → (App.new ids seqs title).alphabet = Alphabet.Nucleic) ∧
    ((∀ s ∈ seqs, s.data = []) → (App.new ids seqs title).alphabet = Alphabet.Nucleic) := by
  have halph : (App.new ids seqs title).alphabet =
      match seqs.any (fun seq => seq.data.any (fun c => ! NUCLEOTIDES.contains c)) with
      | true => Alphabet.Protein
      | false => Alphabet.Nucleic := rfl
  have hiff : seqs.any (fun seq => seq.data.any (fun c => ! NUCLEOTIDES.contains c)) = true ↔
      ∃ s ∈ seqs, ∃ c ∈ s.data, ¬ specIsNucleotide c := by
    simp only [List.any_eq_true, notContains_iff]
  rw [halph]
  cases hb : seqs.any (fun seq => seq.data.any (fun c => ! NUCLEOTIDES.contains c))
  case false =>
    have hnex : ¬ ∃ s ∈ seqs, ∃ c ∈ s.data, ¬ specIsNucleotide c := by
      rw [← hiff, hb]
      simp
    refine ⟨?_, ?_, ?_, ?_⟩
    · simp [hnex]
    · simp [hnex]
    · intro _
      rfl
    · intro _
      rfl
  case true =>
    have hex : ∃ s ∈ seqs, ∃ c ∈ s.data, ¬ specIsNucleotide c := hiff.mp hb
    refine ⟨?_, ?_, ?_, ?_⟩
    · simp [hex]
    · simp [hex]
    · intro he
      subst he
      simp at hb
    · intro hall
      obtain ⟨s, hs, c, hc, -⟩ := hex
      rw [hall s hs] at hc
      simp at hc

/-! ## C4: render-backend write failure -/

/-- C4 counterexample: a draw failure (`terminal.draw` returns an
error) aborts `run_app` with that error, yet `render_view` — the viewer
session — returns `Ok(())` to its caller: the error is printed and
converted into a successful return, not propagated. -/
theorem c4_counterexample :
    runApp (App.new [] [] "t") [⟨.error 3, (20, 20), .ok false, .ok .other⟩] = .err 3 ∧
    (renderView [] [] "t" allOkOracle [⟨.error 3, (20, 20), .ok false, .ok .other⟩]).2 =
      .ok () := ⟨rfl, rfl⟩

/-- C4 (amended): a render-backend write failure aborts the event loop
immediately — `run_app` returns the error regardless of any remaining
input — and the error reaches `render_view`, which (when the terminal
restore steps succeed) restores the terminal, prints the error, and
returns `Ok(())` to its own caller instead of propagating it. -/
theorem c4_render_error_swallowed (ids seqs : List String) (title : String) (o : TermOracle)
    (e : IOError) (fr : Nat × Nat) (p : Except IOError Bool) (r : Except IOError VKey)
    (rest : List LoopStep)
    (h1 : o.enableRawRes = .ok ()) (h2 : o.enterAltRes = .ok ()) (h3 : o.newTermRes = .ok ())
    (h4 : o.disableRawRes = .ok ()) (h5 : o.leaveAltRes = .ok ()) (h6 : o.showCursorRes = .ok ()) :
    runApp (App.new ids seqs title) (⟨.error e, fr, p, r⟩ :: rest) = .err e ∧
    (renderView ids seqs title o (⟨.error e, fr, p, r⟩ :: rest)).1 =
      [.enableRaw, .enterAltMouse, .disableRaw, .leaveAltMouse, .showCursor, .printErr e] ∧
    (renderView ids seqs title o (⟨.error e, fr, p, r⟩ :: rest)).2 = .ok () := by
  have hrun : runApp (App.new ids seqs title) (⟨.error e, fr, p, r⟩ :: rest) = .err e := rfl
  refine ⟨hrun, ?_, ?_⟩ <;>
    simp [renderView, h1, h2, h3, h4, h5, h6, hrun]

/-- Witness for C4 (amended) at a concrete session. -/
theorem c4_render_error_swallowed_witness :
    (allOkOracle.enableRawRes = .ok () ∧ allOkOracle.enterAltRes = .ok () ∧
      allOkOracle.newTermRes = .ok () ∧ allOkOracle.disableRawRes = .ok () ∧
      allOkOracle.leaveAltRes = .ok () ∧ allOkOracle.showCursorRes = .ok ()) ∧
    (runApp (App.new [] ["AC"] "t") (⟨.error 5, (9, 9), .ok false, .ok .other⟩ :: []) = .err 5 ∧
     (renderView [] ["AC"] "t" allOkOracle (⟨.error 5, (9, 9), .ok false, .ok .other⟩ :: [])).1 =
       [.enableRaw, .enterAltMouse, .disableRaw, .leaveAltMouse, .showCursor, .printErr 5] ∧
     (renderView [] ["AC"] "t" allOkOracle (⟨.error 5, (9, 9), .ok false, .ok .other⟩ :: [])).2 =
       .ok ()) :=
  ⟨⟨rfl, rfl, rfl, rfl, rfl, rfl⟩,
    c4_render_error_swallowed [] ["AC"] "t" allOkOracle 5 (9, 9) (.ok false) (.ok .other) []
      rfl rfl rfl rfl rfl rfl⟩

/-! ## C5: terminal restoration on exit paths -/

/-- C5 counterexample: when `enable_raw_mode` succeeds but the
alternate-screen/mouse-capture `execute!` fails, `render_view`
propagates the setup error immediately: no restore action at all is
attempted (in particular raw mode is not disabled), contradicting the
claimed best-effort restore on setup errors after raw mode was
entered. -/
theorem c5_counterexample :
    (renderView [] [] "t" altFailOracle []).1 = [.enableRaw, .enterAltMouse] ∧
    TermAction.disableRaw ∉ (renderView [] [] "t" altFailOracle []).1 ∧
    TermAction.leaveAltMouse ∉ (renderView [] [] "t" altFailOracle []).1 ∧
    (renderView [] [] "t" altFailOracle []).2 = .error 7 := by
  refine ⟨rfl, by decide, by decide, rfl⟩

/-- C5 (amended): on the exit paths that go through `run_app` — normal
quit, input error, render error — the terminal is restored (raw mode
disabled, alternate screen left, mouse capture disabled, cursor shown)
provided setup succeeded and each restore call itself succeeds; a setup
error after raw mode was entered propagates without any restore
attempt, and a failing restore step skips the remaining ones. -/
theorem c5_restore_after_loop (ids seqs : List String) (title : String) (o : TermOracle)
    (steps : List LoopStep)
    (h1 : o.enableRawRes = .ok ()) (h2 : o.enterAltRes = .ok ()) (h3 : o.newTermRes = .ok ())
    (h4 : o.disableRawRes = .ok ()) (h5 : o.leaveAltRes = .ok ()) (h6 : o.showCursorRes = .ok ()) :
    TermAction.disableRaw ∈ (renderView ids seqs title o steps).1 ∧
    TermAction.leaveAltMouse ∈ (renderView ids seqs title o steps).1 ∧
    TermAction.showCursor ∈ (renderView ids seqs title o steps).1 ∧
    (renderView ids seqs title o steps).2 = .ok () := by
  simp only [renderView, h1, h2, h3, h4, h5, h6]
  cases hres : runApp (App.new ids seqs title) steps <;> simp

/-- Witness for C5 (amended) at a concrete session. -/
theorem c5_restore_after_loop_witness :
    (allOkOracle.enableRawRes = .ok () ∧ allOkOracle.enterAltRes = .ok () ∧
      allOkOracle.newTermRes = .ok () ∧ allOkOracle.disableRawRes = .ok () ∧
      allOkOracle.leaveAltRes = .ok () ∧ allOkOracle.showCursorRes = .ok ()) ∧
    (TermAction.disableRaw ∈ (renderView [] ["AC"] "t" allOkOracle []).1 ∧
     TermAction.leaveAltMouse ∈ (renderView [] ["AC"] "t" allOkOracle []).1 ∧
     TermAction.showCursor ∈ (renderView [] ["AC"] "t" allOkOracle []).1 ∧
     (renderView [] ["AC"] "t" allOkOracle []).2 = .ok ()) :=
  ⟨⟨rfl, rfl, rfl, rfl, rfl, rfl⟩,
    c5_restore_after_loop [] ["AC"] "t" allOkOracle [] rfl rfl rfl rfl rfl rfl⟩

/-! ## C3: the ruler string

The ruler claims need the digit-count lemmas for `decDigits`, the
accumulator law of `rulerLoop`, and a characterization of the loop
suffix generated from any clean position, proved by induction on the
remaining fuel `maxlen + 1 - i`. -/


lemma decDigits_length (n : Nat) : (decDigits n).length = Nat.log 10 n + 1 := by
  induction n using Nat.strong_induction_on with
  | _ n ih =>
    by_cases h : n < 10
    · rw [decDigits, if_pos h]
      have h0 : Nat.log 10 n = 0 := by
        rw [Nat.log_eq_zero_iff]
        omega
      simp [h0]
    · rw [decDigits, if_neg h]
      have hrec := ih (n / 10) (Nat.div_lt_self (by omega) (by omega))
      have hpos : 0 < Nat.log 10 n := Nat.log_pos (by norm_num) (by omega)
      have hdiv : Nat.log 10 (n / 10) = Nat.log 10 n - 1 := Nat.log_div_base 10 n
      simp only [List.length_append, List.length_cons, List.length_nil, hrec]
      omega

lemma decDigits_length_le (i : Nat) (hi : i ≤ 65535) : (decDigits i).length ≤ 5 := by
  rw [decDigits_length]
  by_cases h0 : i = 0
  · subst h0
    rw [Nat.log_zero_right]
    omega
  · have hlog : Nat.log 10 i ≤ 4 := by
      by_contra h
      push_neg at h
      have h1 : 10 ^ Nat.log 10 i ≤ i := Nat.pow_log_le_self 10 h0
      have h2 : 10 ^ 5 ≤ 10 ^ Nat.log 10 i := Nat.pow_le_pow_right (by norm_num) (by omega)
      norm_num at h2
      omega
    omega

lemma decDigits_length_pos (i : Nat) : 1 ≤ (decDigits i).length := by
  rw [decDigits_length]
  omega

lemma rulerDigitCount_eq (i : Nat) (hi : 1 ≤ i) : rulerDigitCount i = (decDigits i).length := by
  rw [decDigits_length]
  unfold rulerDigitCount
  by_cases hp : 10 ^ Nat.log 10 (i + 1) = i + 1
  · rw [if_pos hp]
    have hk1 : 1 ≤ Nat.log 10 (i + 1) := by
      by_contra h
      push_neg at h
      interval_cases h' : Nat.log 10 (i + 1)
      · simp at hp
        omega
    have hpow : 10 ^ (Nat.log 10 (i + 1) - 1) < 10 ^ Nat.log 10 (i + 1) :=
      Nat.pow_lt_pow_right (by norm_num) (by omega)
    have hlogi : Nat.log 10 i = Nat.log 10 (i + 1) - 1 := by
      apply Nat.log_eq_of_pow_le_of_lt_pow
      · omega
      · rw [show Nat.log 10 (i + 1) - 1 + 1 = Nat.log 10 (i + 1) from by omega]
        omega
    omega
  · rw [if_neg hp]
    have h1 : 10 ^ Nat.log 10 i ≤ i := Nat.pow_log_le_self 10 (by omega)
    have h2 : i < 10 ^ (Nat.log 10 i + 1) := Nat.lt_pow_succ_log_self (by norm_num) i
    have hlog : Nat.log 10 (i + 1) = Nat.log 10 i := by
      apply Nat.log_eq_of_pow_le_of_lt_pow
      · omega
      · rcases Nat.lt_or_ge (i + 1) (10 ^ (Nat.log 10 i + 1)) with h | h
        · exact h
        · exfalso
          apply hp
          rw [show i + 1 = 10 ^ (Nat.log 10 i + 1) from by omega,
            Nat.log_pow (show 1 < 10 from by norm_num)]
    omega

lemma rulerLoop_unfold (maxlen i : Nat) (acc : List Char) :
    rulerLoop maxlen i acc =
      if i ≤ maxlen then
        if i % 10 = 0 then
          rulerLoop maxlen (i + (rulerDigitCount i - 1) + 1) (acc ++ decDigits i)
        else rulerLoop maxlen (i + 1) (acc ++ [' '])
      else acc := by
  rw [rulerLoop]

lemma rulerLoop_append (maxlen : Nat) :
    ∀ fuel i acc, maxlen + 1 - i ≤ fuel →
      rulerLoop maxlen i acc = acc ++ rulerLoop maxlen i [] := by
  intro fuel
  induction fuel with
  | zero =>
    intro i acc h
    rw [rulerLoop_unfold maxlen i acc, rulerLoop_unfold maxlen i []]
    have hgt : ¬ i ≤ maxlen := by omega
    simp [hgt]
  | succ n ih =>
    intro i acc h
    rw [rulerLoop_unfold maxlen i acc, rulerLoop_unfold maxlen i []]
    by_cases hle : i ≤ maxlen
    · by_cases hm : i % 10 = 0
      · rw [if_pos hle, if_pos hle, if_pos hm, if_pos hm,
          ih (i + (rulerDigitCount i - 1) + 1) (acc ++ decDigits i) (by omega),
          ih (i + (rulerDigitCount i - 1) + 1) ([] ++ decDigits i) (by omega)]
        simp
      · rw [if_pos hle, if_pos hle, if_neg hm, if_neg hm,
          ih (i + 1) (acc ++ [' ']) (by omega),
          ih (i + 1) ([] ++ [' ']) (by omega)]
        simp
    · rw [if_neg hle, if_neg hle]
      simp

lemma rulerLoop_acc (maxlen i : Nat) (acc : List Char) :
    rulerLoop maxlen i acc = acc ++ rulerLoop maxlen i [] :=
  rulerLoop_append maxlen (maxlen + 1 - i) i acc (le_refl _)

lemma rulerEndPos_ge (maxlen i : Nat) : i ≤ rulerEndPos maxlen i := by
  unfold rulerEndPos
  split_ifs <;> omega

lemma rulerEndPos_numeral_step (maxlen i d : Nat)
    (hle : i ≤ maxlen) (hm : i % 10 = 0) (h10 : 10 ≤ i)
    (hd : d = (decDigits i).length) (hd1 : 1 ≤ d) (hd5 : d ≤ 5) :
    rulerEndPos maxlen (i + d) = rulerEndPos maxlen i := by
  by_cases hLi : lastTick maxlen = i
  · unfold rulerEndPos
    rw [hLi, ← hd]
    unfold lastTick at hLi
    split_ifs <;> omega
  · have hLgt : i + 10 ≤ lastTick maxlen := by
      unfold lastTick at *
      omega
    unfold rulerEndPos
    split_ifs <;> unfold lastTick at * <;> omega

lemma rulerEndPos_space_step (maxlen i : Nat) (hle : i ≤ maxlen) (hm : i % 10 ≠ 0) :
    rulerEndPos maxlen (i + 1) = rulerEndPos maxlen i := by
  unfold rulerEndPos
  split_ifs <;> unfold lastTick at * <;> omega

lemma rulerLoop_spec_stop (maxlen i : Nat) (hgt : ¬ i ≤ maxlen) :
    (rulerLoop maxlen i []).length = rulerEndPos maxlen i - i ∧
    ∀ k, (rulerLoop maxlen i []).getD k ' ' =
      if k < rulerEndPos maxlen i - i then rulerSpecChar maxlen (i + k) else ' ' := by
  have hunf : rulerLoop maxlen i [] = [] := by rw [rulerLoop_unfold, if_neg hgt]
  have hend : rulerEndPos maxlen i = i := by unfold rulerEndPos; rw [if_neg hgt]
  rw [hunf, hend]
  exact ⟨by simp, fun k => by simp⟩

lemma rulerLoop_spec (maxlen : Nat) (hml : maxlen ≤ 65535) :
    ∀ fuel i, maxlen + 1 - i ≤ fuel → 1 ≤ i → cleanPos i →
      (rulerLoop maxlen i []).length = rulerEndPos maxlen i - i ∧
      ∀ k, (rulerLoop maxlen i []).getD k ' ' =
        if k < rulerEndPos maxlen i - i then rulerSpecChar maxlen (i + k) else ' ' := by
  intro fuel
  induction fuel with
  | zero =>
    intro i h h1 hc
    exact rulerLoop_spec_stop maxlen i (by omega)
  | succ n ih =>
    intro i h h1 hc
    by_cases hle : i ≤ maxlen
    · by_cases hm : i % 10 = 0
      · -- numeral branch
        have h10 : 10 ≤ i := by omega
        have hd1 : 1 ≤ (decDigits i).length := decDigits_length_pos i
        have hd5 : (decDigits i).length ≤ 5 := decDigits_length_le i (by omega)
        have hadv : i + (rulerDigitCount i - 1) + 1 = i + (decDigits i).length := by
          rw [rulerDigitCount_eq i (by omega)]
          omega
        have hunf : rulerLoop maxlen i [] =
            decDigits i ++ rulerLoop maxlen (i + (decDigits i).length) [] := by
          rw [rulerLoop_unfold, if_pos hle, if_pos hm, hadv, rulerLoop_acc]
          simp
        have hclean : cleanPos (i + (decDigits i).length) := by
          right; right
          have hq : 10 * ((i + (decDigits i).length) / 10) = i := by omega
          rw [hq]
        have hend : rulerEndPos maxlen (i + (decDigits i).length) = rulerEndPos maxlen i :=
          rulerEndPos_numeral_step maxlen i (decDigits i).length hle hm h10 rfl hd1 hd5
        obtain ⟨ihlen, ihel⟩ := ih (i + (decDigits i).length) (by omega) (by omega) hclean
        have hge2 : i + (decDigits i).length ≤ rulerEndPos maxlen i := by
          rw [← hend]
          exact rulerEndPos_ge maxlen _
        constructor
        · rw [hunf, List.length_append, ihlen, hend]
          omega
        · intro k
          rw [hunf]
          by_cases hk : k < (decDigits i).length
          · rw [List.getD_append _ _ _ _ hk, if_pos (by omega : k < rulerEndPos maxlen i - i)]
            have hmj : 10 * ((i + k) / 10) = i := by omega
            unfold rulerSpecChar
            rw [hmj, if_pos ⟨h10, hle, by omega⟩,
              show i + k - i = k from by omega]
          · push_neg at hk
            rw [List.getD_append_right _ _ _ _ hk, ihel (k - (decDigits i).length), hend,
              show i + (decDigits i).length + (k - (decDigits i).length) = i + k from by omega]
            by_cases hko : k < rulerEndPos maxlen i - i
            · rw [if_pos (by omega), if_pos hko]
            · rw [if_neg (by omega), if_neg hko]
      · -- space branch
        have hunf : rulerLoop maxlen i [] = ' ' :: rulerLoop maxlen (i + 1) [] := by
          rw [rulerLoop_unfold, if_pos hle, if_neg hm, rulerLoop_acc]
          simp
        have hclean : cleanPos (i + 1) := by
          by_cases hm1 : (i + 1) % 10 = 0
          · exact Or.inl hm1
          · rcases hc with hc | hc | hc
            · exact absurd hc hm
            · right; left
              rw [show 10 * ((i + 1) / 10) = 10 * (i / 10) from by omega]
              exact hc
            · right; right
              rw [show 10 * ((i + 1) / 10) = 10 * (i / 10) from by omega]
              omega
        have hend := rulerEndPos_space_step maxlen i hle hm
        obtain ⟨ihlen, ihel⟩ := ih (i + 1) (by omega) (by omega) hclean
        have hge2 : i + 1 ≤ rulerEndPos maxlen i := by
          rw [← hend]
          exact rulerEndPos_ge maxlen _
        constructor
        · rw [hunf, List.length_cons, ihlen, hend]
          omega
        · intro k
          rw [hunf]
          cases k with
          | zero =>
            rw [List.getD_cons_zero, if_pos (by omega : 0 < rulerEndPos maxlen i - i)]
            have hnc : ¬ (10 ≤ 10 * ((i + 0) / 10) ∧ 10 * ((i + 0) / 10) ≤ maxlen ∧
                i + 0 < 10 * ((i + 0) / 10) + (decDigits (10 * ((i + 0) / 10))).length) := by
              rw [show 10 * ((i + 0) / 10) = 10 * (i / 10) from by omega]
              rcases hc with hc | hc | hc
              · exact absurd hc hm
              · intro hcon
                omega
              · intro hcon
                omega
            unfold rulerSpecChar
            rw [if_neg hnc]
          | succ k =>
            rw [List.getD_cons_succ, ihel k, hend,
              show i + 1 + k = i + (k + 1) from by omega]
            by_cases hko : k + 1 < rulerEndPos maxlen i - i
            · rw [if_pos (by omega), if_pos hko]
            · rw [if_neg (by omega), if_neg hko]
    · exact rulerLoop_spec_stop maxlen i hle

lemma App.new_ruler (ids seqs : List String) (title : String) :
    (App.new ids seqs title).ruler =
      rulerLoop (App.new ids seqs title).maxlen 1 [' '] := rfl

lemma rulerEndPos_one (M : Nat) : rulerEndPos M 1 = rulerLen M := by
  unfold rulerEndPos rulerLen
  split_ifs <;> (try rfl) <;> unfold lastTick at * <;> omega

lemma ruler_layout (M : Nat) (hml : M ≤ 65535) :
    (rulerLoop M 1 [' ']).length = rulerLen M ∧
    ∀ j < rulerLen M, (rulerLoop M 1 [' ']).getD j ' ' = rulerSpecChar M j := by
  have hclean1 : cleanPos 1 := Or.inr (Or.inl (by norm_num))
  obtain ⟨hlen, hel⟩ := rulerLoop_spec M hml (M + 1) 1 (by omega) (by omega) hclean1
  have hacc : rulerLoop M 1 [' '] = ' ' :: rulerLoop M 1 [] := rulerLoop_acc M 1 [' ']
  have hone : rulerEndPos M 1 = rulerLen M := rulerEndPos_one M
  have hge : 1 ≤ rulerEndPos M 1 := rulerEndPos_ge M 1
  constructor
  · rw [hacc, List.length_cons, hlen]
    omega
  · intro j hj
    rw [hacc]
    cases j with
    | zero =>
      rw [List.getD_cons_zero]
      have hnc : ¬ (10 ≤ 10 * (0 / 10) ∧ 10 * (0 / 10) ≤ M ∧
          0 < 10 * (0 / 10) + (decDigits (10 * (0 / 10))).length) := by
        intro hcon
        omega
      unfold rulerSpecChar
      rw [if_neg hnc]
    | succ j =>
      rw [List.getD_cons_succ, hel j, if_pos (by omega : j < rulerEndPos M 1 - 1),
        show 1 + j = j + 1 from by omega]


lemma log10_ten : Nat.log 10 10 = 1 :=
  Nat.log_eq_of_pow_le_of_lt_pow (by norm_num) (by norm_num)

lemma rulerDigitCount_ten : rulerDigitCount 10 = 2 := by
  rw [rulerDigitCount_eq 10 (by norm_num), decDigits_length, log10_ten]

/-- C3 counterexample: for `max_len = 10` the generated ruler is the
12-character string consisting of ten spaces followed by the numeral
10, not a string of length `max_len + 1 = 11`: the final decade numeral
runs past column `max_len`. -/
theorem c3_counterexample :
    (App.new [] ["AAAAAAAAAA"] "t").ruler.length ≠
      (App.new [] ["AAAAAAAAAA"] "t").maxlen + 1 := by
  have hmax : (App.new [] ["AAAAAAAAAA"] "t").maxlen = 10 := by decide
  have hruler : (App.new [] ["AAAAAAAAAA"] "t").ruler = rulerLoop 10 1 [' '] := by
    rw [App.new_ruler, hmax]
  rw [hruler, hmax]
  have hev : rulerLoop 10 1 [' '] =
      [' ', ' ', ' ', ' ', ' ', ' ', ' ', ' ', ' ', ' ', '1', '0'] := by
    simp [rulerLoop, rulerDigitCount_ten, decDigits]
  rw [hev]
  decide

/-- C3 (amended): for every input collection (whose truncated `max_len`
is at most 65534; at 65535 the source's `u16` loop counter overflows
and the loop does not terminate), the ruler consists of a leading space
at index 0, the decimal numeral of each multiple of 10 up to `max_len`
starting at string index equal to its value, and single spaces at every
other index; its length is `max_len + 1` except when the digits of the
last decade numeral run past column `max_len`, in which case the string
extends to the end of that numeral (`rulerLen`). -/
theorem c3_ruler_layout (ids seqs : List String) (title : String)
    (hml : (App.new ids seqs title).maxlen ≤ 65534) :
    (App.new ids seqs title).ruler.length = rulerLen (App.new ids seqs title).maxlen ∧
    ∀ j < rulerLen (App.new ids seqs title).maxlen,
      (App.new ids seqs title).ruler.getD j ' ' =
        rulerSpecChar (App.new ids seqs title).maxlen j := by
  rw [App.new_ruler]
  exact ruler_layout _ (by omega)

/-- Witness for C3 (amended) at `max_len = 12`. -/
theorem c3_ruler_layout_witness :
    (App.new [] ["AAAAAAAAAAAA"] "t").maxlen ≤ 65534 ∧
    ((App.new [] ["AAAAAAAAAAAA"] "t").ruler.length =
        rulerLen (App.new [] ["AAAAAAAAAAAA"] "t").maxlen ∧
      ∀ j < rulerLen (App.new [] ["AAAAAAAAAAAA"] "t").maxlen,
        (App.new [] ["AAAAAAAAAAAA"] "t").ruler.getD j ' ' =
          rulerSpecChar (App.new [] ["AAAAAAAAAAAA"] "t").maxlen j) :=
  ⟨by decide, c3_ruler_layout [] ["AAAAAAAAAAAA"] "t" (by decide)⟩
